import Mathlib

/-!
Verification of the fastws WebSocket library (frame codec, connection
session, upgrade handshake) against its natural-language specification.

The Go sources are embedded shallowly: bytes and machine integers are `Nat`
with explicit reductions modulo `2 ^ w` where Go overflow semantics matter,
byte buffers are `List Nat`, an `io.Reader` is a queue of chunks (each
`Read` call delivers at most one chunk), and Go runtime panics are a
distinct outcome constructor.  Every definition follows the corresponding
function in the Go sources (`frame.go`, `mask.go`, the connection file and
the upgrader file); the few symbols whose defining file is absent from the
source snapshot are modelled from the specification and say so in their
doc comments.
-/

set_option maxHeartbeats 2000000
set_option maxRecDepth 100000

namespace Fastws

/-! ## Byte-level helpers -/

/-- A Go `byte`; values are kept below 256 by the well-formedness predicates. -/
abbrev Byte := Nat

/-- Overwrite `dst` from index `i` on with `src`, Go `copy(dst[i:], src)` on a
fixed-size buffer (every use in this development stays in bounds). -/
def writeAt (dst : List Byte) (i : Nat) (src : List Byte) : List Byte :=
  dst.take i ++ src ++ dst.drop (i + src.length)

/-- `binary.BigEndian.Uint16` of the first two bytes. -/
def beUint16 (b : List Byte) : Nat :=
  b.getD 0 0 * 2 ^ 8 + b.getD 1 0

/-- `binary.BigEndian.Uint64` of the first eight bytes. -/
def beUint64 (b : List Byte) : Nat :=
  b.getD 0 0 * 2 ^ 56 + b.getD 1 0 * 2 ^ 48 + b.getD 2 0 * 2 ^ 40 +
  b.getD 3 0 * 2 ^ 32 + b.getD 4 0 * 2 ^ 24 + b.getD 5 0 * 2 ^ 16 +
  b.getD 6 0 * 2 ^ 8 + b.getD 7 0

/-- `binary.BigEndian.PutUint16` (Go truncates each byte with `byte(v)`). -/
def putUint16 (n : Nat) : List Byte :=
  [n / 2 ^ 8 % 256, n % 256]

/-- `binary.BigEndian.PutUint64`. -/
def putUint64 (n : Nat) : List Byte :=
  [n / 2 ^ 56 % 256, n / 2 ^ 48 % 256, n / 2 ^ 40 % 256, n / 2 ^ 32 % 256,
   n / 2 ^ 24 % 256, n / 2 ^ 16 % 256, n / 2 ^ 8 % 256, n % 256]

/-- `mask(mask, b []byte)` from mask.go: XOR byte `i` with `key[i & 3]`. -/
def maskBytes (key : List Byte) (b : List Byte) : List Byte :=
  b.mapIdx (fun i v => v ^^^ key.getD (i % 4) 0)

/-- Go `int64(x)` reinterpretation of a `uint64` value. -/
def toInt64 (x : Nat) : Int :=
  if x < 2 ^ 63 then (x : Int) else (x : Int) - 2 ^ 64

/-! ## Frame codec (frame.go) -/

/-- Frame opcodes. -/
def CodeContinuation : Nat := 0x0
def CodeText : Nat := 0x1
def CodeBinary : Nat := 0x2
def CodeClose : Nat := 0x8
def CodePing : Nat := 0x9
def CodePong : Nat := 0xA

def finBit : Nat := 1 <<< 7
def rsv1Bit : Nat := 1 <<< 6
def rsv2Bit : Nat := 1 <<< 5
def rsv3Bit : Nat := 1 <<< 4
def maskBit : Nat := 1 <<< 7

/-- Default `Frame.max` from `framePool.New`. -/
def maxPayloadSize : Nat := 4096

/-- `Frame`: header buffer `op` (10 bytes), `mask` (4 bytes), `status`
(2 bytes), payload `b` together with its Go slice capacity `bcap`, and the
configured `max` payload size. -/
structure Frame where
  max : Nat
  op : List Byte
  mask : List Byte
  status : List Byte
  b : List Byte
  bcap : Nat
deriving DecidableEq

/-- `AcquireFrame` on an empty pool: the frame built by `framePool.New`
(`b` has length 0 and capacity 128). -/
def Frame.acquire : Frame :=
  { max := maxPayloadSize
    op := List.replicate 10 0
    mask := List.replicate 4 0
    status := List.replicate 2 0
    b := []
    bcap := 128 }

def Frame.op0 (fr : Frame) : Byte := fr.op.getD 0 0
def Frame.op1 (fr : Frame) : Byte := fr.op.getD 1 0

def Frame.IsFin (fr : Frame) : Bool := fr.op0 &&& finBit != 0
def Frame.HasRSV1 (fr : Frame) : Bool := fr.op0 &&& rsv1Bit != 0
def Frame.HasRSV2 (fr : Frame) : Bool := fr.op0 &&& rsv2Bit != 0
def Frame.HasRSV3 (fr : Frame) : Bool := fr.op0 &&& rsv3Bit != 0

/-- `Frame.Code`: the low 4 bits of the first header byte. -/
def Frame.Code (fr : Frame) : Nat := fr.op0 &&& 15

/-- Write `Mode` values (the connection file declares `ModeText` and
`ModeBinary`; `Frame.Mode` additionally returns `ModeNone` for every other
opcode). -/
inductive Mode
  | none
  | text
  | binary
deriving DecidableEq

/-- `Frame.Mode`. -/
def Frame.mode (fr : Frame) : Mode :=
  if fr.Code = CodeText then .text
  else if fr.Code = CodeBinary then .binary
  else .none

def Frame.IsPing (fr : Frame) : Bool := fr.Code = CodePing
def Frame.IsPong (fr : Frame) : Bool := fr.Code = CodePong
def Frame.IsContinuation (fr : Frame) : Bool := fr.Code = CodeContinuation
def Frame.IsClose (fr : Frame) : Bool := fr.Code = CodeClose
def Frame.IsMasked (fr : Frame) : Bool := fr.op1 &&& maskBit != 0

/-- `Frame.Len`: the declared payload length (7-bit value, or the 16- or
64-bit big-endian extension starting at `op[2]`). -/
def Frame.Len (fr : Frame) : Nat :=
  let length := fr.op1 &&& 127
  if length = 126 then beUint16 (fr.op.drop 2)
  else if length = 127 then beUint64 (fr.op.drop 2)
  else length

/-- `Frame.MaskKey`. -/
def Frame.MaskKey (fr : Frame) : List Byte := fr.mask.take 4

/-- `Frame.Payload`. -/
def Frame.Payload (fr : Frame) : List Byte := fr.b

def Frame.SetFin (fr : Frame) : Frame :=
  { fr with op := fr.op.set 0 (fr.op0 ||| finBit) }

def Frame.SetRSV1 (fr : Frame) : Frame :=
  { fr with op := fr.op.set 0 (fr.op0 ||| rsv1Bit) }

/-- `Frame.SetCode`: `code &= 15; op[0] &= 15 << 4; op[0] |= code`. -/
def Frame.SetCode (fr : Frame) (code : Nat) : Frame :=
  { fr with op := fr.op.set 0 ((fr.op0 &&& (15 <<< 4)) ||| (code &&& 15)) }

def Frame.SetText (fr : Frame) : Frame := fr.SetCode CodeText
def Frame.SetBinary (fr : Frame) : Frame := fr.SetCode CodeBinary
def Frame.SetClose (fr : Frame) : Frame := fr.SetCode CodeClose
def Frame.SetContinuation (fr : Frame) : Frame := fr.SetCode CodeContinuation
def Frame.SetPing (fr : Frame) : Frame := fr.SetCode CodePing
def Frame.SetPong (fr : Frame) : Frame := fr.SetCode CodePong

/-- `Frame.SetMask`: set the mask bit and copy the 4-byte key. -/
def Frame.SetMask (fr : Frame) (b : List Byte) : Frame :=
  { fr with op := fr.op.set 1 (fr.op1 ||| maskBit)
            mask := writeAt fr.mask 0 (b.take 4) }

/-- `Frame.UnsetMask`: `fr.op[1] ^= maskBit` (an XOR, not a clear). -/
def Frame.UnsetMask (fr : Frame) : Frame :=
  { fr with op := fr.op.set 1 (fr.op1 ^^^ maskBit) }

/-- `Frame.Write`: append to the payload (never fails; returns `len(b)`). -/
def Frame.Write (fr : Frame) (b : List Byte) : Frame :=
  { fr with b := fr.b ++ b, bcap := Nat.max fr.bcap (fr.b.length + b.length) }

/-- `Frame.SetPayload`: `fr.b = append(fr.b[:0], b...)`. -/
def Frame.SetPayload (fr : Frame) (b : List Byte) : Frame :=
  { fr with b := b, bcap := Nat.max fr.bcap b.length }

/-- `Frame.hasStatus`: either status byte is nonzero. -/
def Frame.hasStatus (fr : Frame) : Bool :=
  fr.status.getD 0 0 > 0 || fr.status.getD 1 0 > 0

/-- The wire length encoded by `setPayloadLen`: payload bytes plus two
status bytes when a status is present. -/
def Frame.effLen (fr : Frame) : Nat :=
  fr.b.length + (if fr.hasStatus then 2 else 0)

/-- `Frame.setPayloadLen`: write the length field into `op` (an OR into
`op[1]`), returning the number of extension bytes used (0, 2 or 8). -/
def Frame.setPayloadLen (fr : Frame) : Frame × Nat :=
  let n := fr.effLen
  if n > 65535 then
    ({ fr with op := writeAt (fr.op.set 1 (fr.op1 ||| 127)) 2 (putUint64 n) }, 8)
  else if n > 125 then
    ({ fr with op := writeAt (fr.op.set 1 (fr.op1 ||| 126)) 2 (putUint16 n) }, 2)
  else
    ({ fr with op := fr.op.set 1 (fr.op1 ||| n) }, 0)

/-- `Frame.Mask` with the random key drawn by `readMask` passed explicitly:
when the payload is nonempty, set the mask bit, store the key and XOR the
payload; an empty payload leaves the frame untouched. -/
def Frame.Mask (fr : Frame) (key : List Byte) : Frame :=
  if fr.b.length > 0 then
    { fr with op := fr.op.set 1 (fr.op1 ||| maskBit)
              mask := writeAt fr.mask 0 (key.take 4)
              b := maskBytes (writeAt fr.mask 0 (key.take 4)) fr.b }
  else fr

/-- `Frame.Unmask`: XOR the payload with the stored key, then `UnsetMask`. -/
def Frame.Unmask (fr : Frame) : Frame :=
  ({ fr with b := maskBytes fr.MaskKey fr.b } : Frame).UnsetMask

/-- `Frame.Status`: big-endian decode of the status buffer. -/
def Frame.Status (fr : Frame) : Nat := beUint16 fr.status

/-- `Frame.SetStatus`: big-endian encode of `uint16(status)`. -/
def Frame.SetStatus (fr : Frame) (status : Nat) : Frame :=
  { fr with status := putUint16 status }

/-- `Frame.mustRead`: number of length-extension bytes implied by `op[1]`. -/
def Frame.mustRead (fr : Frame) : Nat :=
  let n := fr.op1 &&& 127
  if n = 127 then 8 else if n = 126 then 2 else 0

/-- `Frame.Reset`: zero the header buffers and empty the payload, keeping
the payload capacity (`fr.b = fr.b[:0]`). -/
def Frame.Reset (fr : Frame) : Frame :=
  { fr with op := List.replicate 10 0
            mask := List.replicate 4 0
            status := List.replicate 2 0
            b := [] }

/-- `Frame.IsControl`.  Modelled from the spec: the function body is not
among the source files (only its caller `Conn.ReadFull` is); the glossary
defines control frames as those with opcode Close, Ping or Pong. -/
def Frame.IsControl (fr : Frame) : Bool :=
  fr.IsClose || fr.IsPing || fr.IsPong

/-- `Frame.WriteTo` against a writer that never fails: the frame as mutated
by `setPayloadLen`, the bytes put on the wire (header, then mask key when
the mask bit is set, then status bytes when a status is present, then the
payload), and the count Go returns (that of the last `Write` call). -/
def Frame.writeTo (fr : Frame) : Frame × List Byte × Nat :=
  let p := fr.setPayloadLen
  let fr := p.1
  let out := fr.op.take (p.2 + 2)
    ++ (if fr.IsMasked then fr.mask else [])
    ++ (if fr.hasStatus then fr.status else [])
    ++ fr.b
  (fr, out, fr.b.length)

/-! ## Reader model and `Frame.readFrom` -/

/-- Model of an `io.Reader` as used by `readFrom` (a `bufio.Reader`): a
queue of chunks.  One `Read` call delivers up to the requested number of
bytes from the front chunk; an exhausted stream reports `io.EOF`. -/
structure ChunkReader where
  chunks : List (List Byte)
deriving DecidableEq

/-- One `Read` call for a buffer of length `k`: the bytes delivered, the
rest of the stream, and whether the call returned `io.EOF`. -/
def ChunkReader.read (rd : ChunkReader) (k : Nat) : List Byte × ChunkReader × Bool :=
  match rd.chunks with
  | [] => ([], ⟨[]⟩, true)
  | c :: rest =>
    let d := c.drop k
    (c.take k, ⟨if d.isEmpty then rest else d :: rest⟩, false)

/-- Errors surfaced by the embedded functions.  `eofErr` is `io.EOF`;
`maxExceeded` is the `fmt.Errorf("Max b size exceeded ...")` value;
`lenTooBig` and `statusLen` stand for `errLenTooBig` and `errStatusLen`,
which `Conn.ReadFull` matches on but whose defining file is absent from the
source snapshot (they are distinct sentinel errors, equal to no other). -/
inductive Err
  | eofErr
  | readingHeader
  | readingLen
  | readingMask
  | maxExceeded
  | serverMaskedContent
  | controlMustNotBeFragmented
  | frameBetweenContinuation (code : Nat)
  | lenTooBig
  | statusLen
  | timeout
  | closeFailure
deriving DecidableEq

/-- Outcome of running a Go function that can return an error or panic. -/
inductive ReadOutcome
  | ok
  | panicked
  | fail (e : Err)
deriving DecidableEq

/-- Result of `Frame.readFrom`: outcome, the frame, the rest of the stream
and the count `n` the function returns. -/
structure ReadFromResult where
  res : ReadOutcome
  fr : Frame
  rd : ChunkReader
  n : Nat
deriving DecidableEq

/-- `Frame.readFrom` (frame.go), written as a sequence of step functions,
one per block of the Go function; each step receives the frame, the rest of
the stream and the running return count `n`.  `readPayloadStep` is the
final block: the `nn > 0` re-test, the Go panic when `nn` exceeds the
capacity of `fr.b`, and a single `Read` into `fr.b[:nn]` whose result is
accepted without a length check (`fr.b = fr.b[:n]` keeps exactly the bytes
delivered). -/
def Frame.readPayloadStep (fr : Frame) (br : ChunkReader) (n nn : Nat) :
    ReadFromResult :=
  if nn > 0 then
    if nn > fr.bcap then ⟨.panicked, fr, br, n⟩
    else
      let r5 := br.read nn
      if r5.2.2 then ⟨.fail .eofErr, fr, r5.2.1, r5.1.length⟩
      else ⟨.ok, { fr with b := r5.1 }, r5.2.1, r5.1.length⟩
  else ⟨.ok, fr, br, n⟩

/-- The close-frame status block: two status bytes are read (an `io.EOF`
aborts with it), then the payload block runs. -/
def Frame.readStatusStep (fr : Frame) (br : ChunkReader) (n nn : Nat) :
    ReadFromResult :=
  if fr.IsClose then
    let r4 := br.read 2
    let fr := { fr with status := writeAt fr.status 0 r4.1 }
    if r4.2.2 then ⟨.fail .eofErr, fr, r4.2.1, r4.1.length⟩
    else fr.readPayloadStep r4.2.1 r4.1.length nn
  else fr.readPayloadStep br n nn

/-- The close-length decrement (`nn -= 2` on `uint64`, which underflows
when `nn = 1`) and the capacity growth of `fr.b` (its junk contents
modelled as zeros; they are dropped again on a successful payload read). -/
def Frame.readCloseStep (fr : Frame) (br : ChunkReader) (n nn : Nat) :
    ReadFromResult :=
  let nn := if fr.IsClose then (nn + 2 ^ 64 - 2) % 2 ^ 64 else nn
  let rLen : Int := toInt64 nn - (fr.bcap : Int)
  let fr :=
    if rLen > 0 then
      { fr with
        b := fr.b ++ List.replicate (fr.bcap - fr.b.length) 0
               ++ List.replicate (nn - fr.bcap) 0
        bcap := nn }
    else fr
  fr.readStatusStep br n nn

/-- `fr.op[2] &= 127` followed by the `max` check (the only length check in
the function). -/
def Frame.readCheckMax (fr : Frame) (br : ChunkReader) (n : Nat) :
    ReadFromResult :=
  let fr := { fr with op := fr.op.set 2 (fr.op.getD 2 0 &&& 127) }
  let nn := fr.Len
  if fr.max > 0 ∧ nn > fr.max then ⟨.fail .maxExceeded, fr, br, n⟩
  else if nn > 0 then fr.readCloseStep br n nn
  else ⟨.ok, fr, br, n⟩

/-- One `Read` for the 4 mask bytes when the mask bit is set (fewer than 4
delivered bytes is `errReadingMask`). -/
def Frame.readMaskStep (fr : Frame) (br : ChunkReader) (n : Nat) :
    ReadFromResult :=
  if fr.IsMasked then
    let r3 := br.read 4
    let fr := { fr with mask := writeAt fr.mask 0 r3.1 }
    if r3.1.length < 4 then ⟨.fail .readingMask, fr, r3.2.1, n⟩
    else fr.readCheckMax r3.2.1 n
  else fr.readCheckMax br n

/-- One `Read` for the 0, 2 or 8 length-extension bytes (fewer delivered is
`errReadingLen`). -/
def Frame.readLenStep (fr : Frame) (br : ChunkReader) (n : Nat) :
    ReadFromResult :=
  let m := fr.mustRead + 2
  if 2 < m then
    let r2 := br.read (m - 2)
    let fr := { fr with op := writeAt fr.op 2 r2.1 }
    if r2.1.length + 2 < m then ⟨.fail .readingLen, fr, r2.2.1, r2.1.length⟩
    else fr.readMaskStep r2.2.1 r2.1.length
  else fr.readMaskStep br n

/-- Entry block: one `Read` for the 2 header bytes — `io.EOF` propagates,
and fewer than 2 delivered bytes without an error is `errReadingHeader`. -/
def Frame.readFrom (fr : Frame) (br : ChunkReader) : ReadFromResult :=
  let r1 := br.read 2
  let fr := { fr with op := writeAt fr.op 0 r1.1 }
  let n := r1.1.length
  if r1.2.2 then ⟨.fail .eofErr, fr, r1.2.1, n⟩
  else if n < 2 then ⟨.fail .readingHeader, fr, r1.2.1, n⟩
  else fr.readLenStep r1.2.1 n

/-- `Frame.ReadFrom`: a `nil` reader yields `EOF`, otherwise `readFrom`. -/
def Frame.ReadFromOpt (fr : Frame) (rd : Option ChunkReader) : ReadFromResult :=
  match rd with
  | Option.none => ⟨.fail .eofErr, fr, ⟨[]⟩, 0⟩
  | Option.some br => fr.readFrom br

/-! ## Connection session (conn file) -/

/-- Close status codes. -/
def StatusNone : Nat := 1000
def StatusProtocolError : Nat := 1002
def StatusNotConsistent : Nat := 1007
def StatusTooBig : Nat := 1009

/-- `DefaultPayloadSize`. -/
def DefaultPayloadSize : Nat := 1 <<< 20

/-- `Conn`, in its sequential steady state: the role flag `server`, the
monotone `closed` flag, the frames the background `readLoop` has already
queued on the `framer` channel, whether that channel has been closed (the
read loop exits once the transport is closed), the byte sequences of the
frames written to the transport, the default write `mode`, and
`MaxPayloadSize`.  Deadlines, the error channel and wall-clock timing are
not modelled. -/
structure Conn where
  server : Bool
  closed : Bool
  framer : List Frame
  framerClosed : Bool
  out : List (List Byte)
  mode : Mode
  maxPayloadSize : Nat
deriving DecidableEq

/-- A freshly reset connection (`Conn.Reset`): open, empty queue, default
mode and payload size; the role is set by the caller afterwards. -/
def Conn.fresh (server : Bool) (framer : List Frame) : Conn :=
  { server := server
    closed := false
    framer := framer
    framerClosed := false
    out := []
    mode := .text
    maxPayloadSize := DefaultPayloadSize }

/-- `Conn.WriteFrame`: `EOF` on a closed connection, otherwise set the
frame's payload size from the connection, serialize it and flush the bytes
to the transport.  Returns the connection, the frame (as mutated by
`WriteTo`) and the error. -/
def Conn.WriteFrame (conn : Conn) (fr : Frame) : Conn × Frame × Option Err :=
  if conn.closed then (conn, fr, some .eofErr)
  else
    let fr := { fr with max := conn.maxPayloadSize }
    let w := fr.writeTo
    ({ conn with out := conn.out ++ [w.2.1] }, w.1, Option.none)

/-- `Conn.ReadFrame` in the steady state: receive the next buffered frame
from the `framer` channel (`fr2.CopyTo(fr)`, modelled from the spec as a
full copy, and `ReleaseFrame(fr2)`); a closed and drained channel yields
`EOF`; an empty but open channel blocks until the read deadline, yielding
the i/o timeout error. -/
def Conn.ReadFrame (conn : Conn) : Conn × Option Frame × Option Err :=
  match conn.framer with
  | f :: rest => ({ conn with framer := rest }, some f, Option.none)
  | [] =>
    if conn.framerClosed then (conn, Option.none, some .eofErr)
    else (conn, Option.none, some .timeout)

/-- `Conn.SendCode`: build a FIN frame with the given code, optional status
and optional body, mask it when the connection is a client (with the key
`readMask` would draw), and write it. -/
def Conn.SendCode (conn : Conn) (code : Nat) (status : Nat)
    (b : Option (List Byte)) (key : List Byte) : Conn × Option Err :=
  let fr := Frame.acquire
  let fr := fr.SetFin
  let fr := fr.SetCode code
  let fr := if status > 0 then fr.SetStatus status else fr
  let fr := match b with
    | some bb => fr.Write bb
    | Option.none => fr
  let fr := if !conn.server && !fr.IsMasked then fr.Mask key else fr
  let w := conn.WriteFrame fr
  (w.1, w.2.2)

/-- `Conn.sendClose`: a FIN close frame carrying `status` and an optional
body, masked for clients. -/
def Conn.sendClose (conn : Conn) (status : Nat) (b : List Byte)
    (key : List Byte) : Conn × Option Err :=
  let fr := Frame.acquire
  let fr := fr.SetFin
  let fr := fr.SetClose
  let fr := fr.SetStatus status
  let fr := if b.length > 0 then fr.SetPayload b else fr
  let fr := if !conn.server then fr.Mask key else fr
  let w := conn.WriteFrame fr
  (w.1, w.2.2)

/-- The drain loop of `Conn.mustClose` with `wait` set: pop buffered frames
until the close frame (frames queued behind it stay buffered). -/
def dropUntilClose : List Frame → List Frame
  | [] => []
  | f :: rest => if f.IsClose then rest else dropUntilClose rest

/-- `Conn.mustClose`: `EOF` if already closed; otherwise set `closed`,
drain the queue up to the peer close frame when `wait` is set, and close
the transport — after which the background read loop exits and the frame
channel is closed. -/
def Conn.mustClose (conn : Conn) (wait : Bool) : Conn × Option Err :=
  if conn.closed then (conn, some .eofErr)
  else
    let conn := { conn with closed := true }
    let conn := if wait then { conn with framer := dropUntilClose conn.framer }
      else conn
    ({ conn with framerClosed := true }, Option.none)

/-- `Conn.ReplyClose` on a non-nil frame: set FIN and close on it, write
it back, then `mustClose(false)`. -/
def Conn.ReplyClose (conn : Conn) (fr : Frame) : Conn × Frame × Option Err :=
  let fr := fr.SetFin
  let fr := fr.SetClose
  let w := conn.WriteFrame fr
  let conn := w.1
  let fr := w.2.1
  let m := conn.mustClose false
  (m.1, fr, m.2)

/-- `Conn.CloseString`: `EOF` if already closed, otherwise send a close
frame with status 1000 and the optional reason, and `mustClose(true)`. -/
def Conn.CloseString (conn : Conn) (b : List Byte) (key : List Byte) :
    Conn × Option Err :=
  if conn.closed then (conn, some .eofErr)
  else
    let s := conn.sendClose StatusNone b key
    s.1.mustClose true

/-- `Conn.Close`. -/
def Conn.Close (conn : Conn) (key : List Byte) : Conn × Option Err :=
  conn.CloseString [] key

/-- Result of `Conn.checkRequirements`. -/
structure CheckResult where
  conn : Conn
  fr : Frame
  c : Bool
  err : Option Err
deriving DecidableEq

/-- `Conn.checkRequirements`: the masked-content check (clients reject
masked frames; there is no check for the server direction), then the
control-frame policy (pong replies to pings, close replies turning into
`EOF`). -/
def Conn.checkRequirements (conn : Conn) (fr : Frame)
    (betweenContinuation : Bool) (key : List Byte) : CheckResult :=
  if !conn.server && fr.IsMasked then
    ⟨conn, fr, false, some .serverMaskedContent⟩
  else
    let isFin := fr.IsFin
    if fr.IsPing then
      if !isFin && !betweenContinuation then
        ⟨conn, fr, false, some .controlMustNotBeFragmented⟩
      else
        let s := conn.SendCode CodePong 0 (some fr.Payload) key
        ⟨s.1, fr, true, s.2⟩
    else if fr.IsPong then
      if !isFin && !betweenContinuation then
        ⟨conn, fr, false, some .controlMustNotBeFragmented⟩
      else ⟨conn, fr, true, Option.none⟩
    else if fr.IsClose then
      if !isFin && !betweenContinuation then
        ⟨conn, fr, false, some .controlMustNotBeFragmented⟩
      else
        let r := conn.ReplyClose fr
        let err := if r.2.2 = Option.none then some Err.eofErr else r.2.2
        ⟨r.1, r.2.1, false, err⟩
    else ⟨conn, fr, false, Option.none⟩

lemma WriteFrame_framer (conn : Conn) (fr : Frame) :
    (conn.WriteFrame fr).1.framer = conn.framer := by
  unfold Conn.WriteFrame
  split <;> rfl

lemma SendCode_framer (conn : Conn) (code status : Nat) (b : Option (List Byte))
    (key : List Byte) : (conn.SendCode code status b key).1.framer = conn.framer := by
  unfold Conn.SendCode
  exact WriteFrame_framer ..

lemma mustClose_false_framer (conn : Conn) :
    (conn.mustClose false).1.framer = conn.framer := by
  unfold Conn.mustClose
  split <;> simp

lemma ReplyClose_framer (conn : Conn) (fr : Frame) :
    (conn.ReplyClose fr).1.framer = conn.framer := by
  unfold Conn.ReplyClose
  rw [mustClose_false_framer, WriteFrame_framer]

lemma checkRequirements_framer (conn : Conn) (fr : Frame) (bc : Bool)
    (key : List Byte) :
    (conn.checkRequirements fr bc key).conn.framer = conn.framer := by
  simp only [Conn.checkRequirements]
  split_ifs <;> simp [SendCode_framer, ReplyClose_framer]

/-- The frame-assembly loop of `Conn.ReadFull`: reset the frame, dequeue
the next one, unmask it if masked, run `checkRequirements`, reject data
frames arriving between continuations, append the payload, and stop at
FIN.  The loop recurses on the frame queue; `frames` is the queue of the
connection passed alongside (`frames = conn.framer` at every call, an
invariant `checkRequirements_framer` maintains), so the recursion is
structural and the definition evaluates. -/
def readFullLoop (frames : List Frame) (conn : Conn) (b : List Byte)
    (fr : Frame) (betweenContinue : Bool) (key : List Byte) :
    Conn × List Byte × Frame × Option Err :=
  let fr := fr.Reset
  match frames with
  | [] =>
    let r := conn.ReadFrame
    (r.1, b, fr, r.2.2)
  | f :: rest =>
    let conn := { conn with framer := rest }
    let fr := f
    let fr := if fr.IsMasked then fr.Unmask else fr
    let res := conn.checkRequirements fr betweenContinue key
    let conn := res.conn
    let fr := res.fr
    if res.err.isSome then (conn, b, fr, res.err)
    else if res.c then readFullLoop rest conn b fr betweenContinue key
    else if betweenContinue && !fr.IsFin && !fr.IsContinuation && !fr.IsControl then
      (conn, b, fr, some (.frameBetweenContinuation fr.Code))
    else
      let b := b ++ fr.Payload
      if fr.IsFin then (conn, b, fr, Option.none)
      else readFullLoop rest conn b fr true key

/-- `Conn.ReadFull`: run the loop; on error, map `errLenTooBig`,
`errStatusLen` and the fragmentation errors to a close frame with the
matching status and `mustClose` the connection. -/
def Conn.ReadFull (conn : Conn) (b0 : List Byte) (fr0 : Frame)
    (key : List Byte) : Conn × List Byte × Frame × Option Err :=
  let r := readFullLoop conn.framer conn b0 fr0 false key
  let conn := r.1
  let b := r.2.1
  let fr := r.2.2.1
  match r.2.2.2 with
  | Option.none => (conn, b, fr, Option.none)
  | some e =>
    let s :=
      match e with
      | .lenTooBig => conn.sendClose StatusTooBig [] key
      | .statusLen => conn.sendClose StatusNotConsistent [] key
      | .controlMustNotBeFragmented => conn.sendClose StatusProtocolError [] key
      | .frameBetweenContinuation _ => conn.sendClose StatusProtocolError [] key
      | _ => (conn, Option.none)
    let err := if s.2.isSome then some Err.closeFailure else some e
    let m := s.1.mustClose (err = Option.none)
    (m.1, b, fr, err)

/-- `Conn.read` (the body of `ReadMessage`): acquire a frame, `ReadFull`,
and return the mode of the frame left in `fr` — the last frame read. -/
def Conn.read (conn : Conn) (b : List Byte) (key : List Byte) :
    Conn × Mode × List Byte × Option Err :=
  let r := conn.ReadFull b Frame.acquire key
  (r.1, r.2.2.1.mode, r.2.1, r.2.2.2)

/-- `Conn.ReadMessage`. -/
def Conn.ReadMessage (conn : Conn) (b : List Byte) (key : List Byte) :
    Conn × Mode × List Byte × Option Err :=
  conn.read b key

/-- `Conn.write` (the body of `Write`/`WriteMessage`): a FIN frame with
opcode from `mode`, the payload, masked when the connection is a client,
handed to `WriteFrame`.  The written frame is returned for inspection. -/
def Conn.write (conn : Conn) (mode : Mode) (b : List Byte)
    (key : List Byte) : Conn × Frame × Option Err :=
  let fr := Frame.acquire
  let fr := fr.SetFin
  let fr := if mode = Mode.binary then fr.SetBinary else fr.SetText
  let fr := fr.SetPayload b
  let fr := if !conn.server then fr.Mask key else fr
  conn.WriteFrame fr

/-- `Conn.WriteMessage`. -/
def Conn.WriteMessage (conn : Conn) (mode : Mode) (b : List Byte)
    (key : List Byte) : Conn × Frame × Option Err :=
  conn.write mode b key

/-! ## Server upgrade (upgrader file) -/

/-- `websocketString` ("websocket"). -/
def websocketString : List Byte := [119, 101, 98, 115, 111, 99, 107, 101, 116]

/-- `supportedVersions` ("13"; kept a list as in the source). -/
def supportedVersions : List (List Byte) := [[49, 51]]

/-- ASCII lower-casing of one byte. -/
def toLowerByte (c : Byte) : Byte :=
  if 65 ≤ c ∧ c ≤ 90 then c + 32 else c

/-- `equalsFold`.  Modelled from the spec: the function body is not among
the source files (only its callers are); the spec asks for ASCII
case-insensitive equality. -/
def equalsFold (a b : List Byte) : Bool :=
  a.map toLowerByte = b.map toLowerByte

/-- Whether `pre` begins `l` (helper for `bytesContains`). -/
def beginsWith : List Byte → List Byte → Bool
  | _, [] => true
  | [], _ :: _ => false
  | x :: xs, y :: ys => x = y && beginsWith xs ys

/-- `bytes.Contains(hay, sub)`: `sub` occurs as a contiguous run in `hay`
(the empty slice is contained in everything). -/
def bytesContains : List Byte → List Byte → Bool
  | hay, sub =>
    beginsWith hay sub ||
      match hay with
      | [] => false
      | _ :: t => bytesContains t sub

/-- The request fields `Upgrader.Upgrade` consults, with the HTTP-library
plumbing abstracted to the values it yields: `isGet` is `ctx.IsGet()`,
`connectionUpgrade` is `Header.ConnectionUpgrade()` (the `Connection`
header contains the `Upgrade` token), and the remaining fields are the
peeked header values. -/
structure UpgradeRequest where
  isGet : Bool
  connectionUpgrade : Bool
  upgradeHeader : List Byte
  version : List Byte
  origin : List Byte
deriving DecidableEq

/-- How `Upgrader.Upgrade` disposes of a request. -/
inductive UpgradeOutcome
  | badRequest
  | forbidden
  | notUpgraded
  | upgraded
deriving DecidableEq

/-- `Upgrader.Upgrade` reduced to its accept/reject decision: non-GET is
400; a configured origin that does not match (case-insensitively) is 403;
without `Connection: Upgrade` and `Upgrade: websocket` the request is left
alone; the version check accepts when some supported version *contains*
the header value (`bytes.Contains(supportedVersions[i], hversion)`),
otherwise 400; an accepted request is switched to a websocket connection
with `server = true`.  `originCfg` is the prepared `scheme://host` of
`Upgrader.Origin`; `UpgradeHandler` is absent. -/
def upgrade (originCfg : Option (List Byte)) (req : UpgradeRequest) :
    UpgradeOutcome :=
  if !req.isGet then .badRequest
  else if (match originCfg with
           | some o => !equalsFold o req.origin
           | Option.none => false) then .forbidden
  else if req.connectionUpgrade then
    if equalsFold req.upgradeHeader websocketString then
      if supportedVersions.any (fun v => bytesContains v req.version) then
        .upgraded
      else .badRequest
    else .notUpgraded
  else .notUpgraded

/-! ## Well-formedness and helper lemmas -/

/-- Structural well-formedness of a `Frame` value as Go maintains it:
pooled buffer shapes and byte-valued entries. -/
def Frame.WF (fr : Frame) : Prop :=
  fr.op.length = 10 ∧ fr.mask.length = 4 ∧ fr.status.length = 2 ∧
  (∀ x ∈ fr.op, x < 256) ∧ (∀ x ∈ fr.status, x < 256) ∧
  fr.b.length ≤ fr.bcap

instance (fr : Frame) : Decidable fr.WF := by
  unfold Frame.WF
  infer_instance

lemma getD_set_self (l : List Nat) (i v : Nat) (h : i < l.length) :
    (l.set i v).getD i 0 = v := by
  simp [List.getD_eq_getElem?_getD, List.getElem?_set_self, h]

lemma byte_xor_mask_bit : ∀ x : Nat, x < 256 → x &&& 128 = 0 →
    (x ^^^ 128) &&& 128 = 128 := by decide

lemma byte_land_127_eq_zero : ∀ x : Nat, x < 256 → x &&& 127 = 0 →
    x = 0 ∨ x = 128 := by decide

lemma low_land_127 : ∀ l : Nat, l < 128 → l &&& 127 = l := by decide

lemma low_land_128 : ∀ l : Nat, l < 128 → l &&& 128 = 0 := by decide

lemma lor_low_land_127 : ∀ l : Nat, l < 128 → (128 ||| l) &&& 127 = l := by
  decide

lemma lor_low_land_128 : ∀ l : Nat, l < 128 → (128 ||| l) &&& 128 = 128 := by
  decide

lemma zero_lor_land_127 : ∀ l : Nat, l < 128 → (0 ||| l) &&& 127 = l := by
  decide

lemma zero_lor_land_128 : ∀ l : Nat, l < 128 → (0 ||| l) &&& 128 = 0 := by
  decide

/-! ## Claim C10 -/

/-- C10: `UnsetMask` flips the mask bit by XOR instead of clearing it, so on
a frame whose mask bit is already clear both `UnsetMask` and `Unmask`
(which invokes it) leave the frame with `IsMasked = true`: unmasking an
unmasked frame does not leave it unmasked. -/
theorem c10_unmask_sets_mask_bit (fr : Frame) (hop : 2 ≤ fr.op.length)
    (hb : fr.op1 < 256) (h : fr.IsMasked = false) :
    fr.UnsetMask.IsMasked = true ∧ fr.Unmask.IsMasked = true := by
  have h0 : fr.op1 &&& 128 = 0 := by
    simpa [Frame.IsMasked, maskBit] using h
  have hx := byte_xor_mask_bit fr.op1 hb h0
  have h1 : 1 < fr.op.length := by omega
  rw [show fr.op1 = fr.op[1] from List.getD_eq_getElem fr.op 0 h1] at hx
  refine ⟨?_, ?_⟩ <;>
    simp [Frame.Unmask, Frame.UnsetMask, Frame.IsMasked, Frame.op1, maskBit,
      List.getElem?_set_self, h1, hx]

/-- C10 witness: the pooled fresh frame is unmasked, and both operations
leave it reporting `IsMasked = true`. -/
theorem c10_witness :
    2 ≤ Frame.acquire.op.length ∧ Frame.acquire.op1 < 256 ∧
    Frame.acquire.IsMasked = false ∧
    Frame.acquire.UnsetMask.IsMasked = true ∧
    Frame.acquire.Unmask.IsMasked = true :=
  ⟨by decide, by decide, by decide,
    (c10_unmask_sets_mask_bit Frame.acquire (by decide) (by decide)
      (by decide)).1,
    (c10_unmask_sets_mask_bit Frame.acquire (by decide) (by decide)
      (by decide)).2⟩

/-! ## Claim C6 -/

/-- C6: on a Close frame of declared body length 1 the code does not return
a status-length error — `nn -= 2` underflows the `uint64` length to
`2 ^ 64 - 1` and the following `fr.b[:nn]` slice panics (slice bounds out
of range), so `readFrom` crashes where the spec promises `BadStatusLen`. -/
theorem c6_close_declared_len_one_panics :
    (Frame.acquire.readFrom ⟨[[0x88, 0x01, 0xAA]]⟩).res = .panicked := by
  decide

/-! ## Claim C8 -/

/-- C8 (amended): for a GET request carrying `Connection: Upgrade` and
`Upgrade: websocket`, the upgrader accepts if and only if some supported
version *contains* the request's `Sec-WebSocket-Version` value as a
contiguous substring (`bytes.Contains(supportedVersions[i], hversion)`
with the arguments in that order), i.e. iff the value is one of
"", "1", "3", "13"; only the remaining values are answered with
HTTP 400. -/
theorem c8_version_substring_check (req : UpgradeRequest)
    (hget : req.isGet = true) (hconn : req.connectionUpgrade = true)
    (hup : equalsFold req.upgradeHeader websocketString = true) :
    (upgrade Option.none req = .upgraded ↔
      bytesContains [49, 51] req.version = true) ∧
    (bytesContains [49, 51] req.version = false →
      upgrade Option.none req = .badRequest) := by
  unfold upgrade supportedVersions
  constructor
  · cases hv : bytesContains [49, 51] req.version <;>
      simp [hget, hconn, hup, hv]
  · intro hv
    simp [hget, hconn, hup, hv]

/-- C8 witness: a well-formed request with version "13" is upgraded. -/
theorem c8_witness :
    (⟨true, true, websocketString, [49, 51], []⟩ : UpgradeRequest).isGet = true ∧
    upgrade Option.none ⟨true, true, websocketString, [49, 51], []⟩ =
      .upgraded :=
  ⟨rfl, (c8_version_substring_check ⟨true, true, websocketString, [49, 51], []⟩
    rfl rfl (by decide)).1.mpr (by decide)⟩

/-- C8 counterexample: the claim says version "1" (and the empty value) get
HTTP 400 and no upgrade; the code upgrades both. -/
theorem c8_counterexample :
    upgrade Option.none ⟨true, true, websocketString, [49], []⟩ = .upgraded ∧
    upgrade Option.none ⟨true, true, websocketString, [], []⟩ = .upgraded := by
  decide

/-! ## Claim C9 -/

/-- C9 (amended): once `closed` is set, `CloseString` (hence `Close`) and
`WriteFrame` return `EOF` and leave the connection and the stream
untouched, and `ReadFrame` returns `EOF` once the buffered frame queue is
drained; a first successful `CloseString` marks the connection closed.
(`ReadFrame` can still deliver frames that were buffered behind the peer
close frame — see the counterexample.) -/
theorem c9_closed_conn_ops :
    (∀ (conn : Conn) (b key : List Byte), conn.closed = true →
      conn.CloseString b key = (conn, some Err.eofErr)) ∧
    (∀ (conn : Conn) (fr : Frame), conn.closed = true →
      conn.WriteFrame fr = (conn, fr, some Err.eofErr)) ∧
    (∀ conn : Conn, conn.framer = [] → conn.framerClosed = true →
      conn.ReadFrame = (conn, Option.none, some Err.eofErr)) ∧
    (∀ (conn : Conn) (b key : List Byte), conn.closed = false →
      (conn.CloseString b key).1.closed = true ∧
      (conn.CloseString b key).1.framerClosed = true) := by
  refine ⟨?_, ?_, ?_, ?_⟩
  · intro conn b key h
    simp [Conn.CloseString, h]
  · intro conn fr h
    simp [Conn.WriteFrame, h]
  · intro conn h1 h2
    simp [Conn.ReadFrame, h1, h2]
  · intro conn b key h
    simp [Conn.CloseString, Conn.sendClose, Conn.WriteFrame, Conn.mustClose,
      Conn.SendCode, h]

/-- A concrete already-closed server connection. -/
def closedConn : Conn := ((Conn.fresh true []).mustClose true).1

/-- A FIN Close frame. -/
def closeFinFrame : Frame := (Frame.acquire.SetFin).SetClose

/-- A FIN Text frame with payload "hi". -/
def textHiFrame : Frame := (Frame.acquire.SetFin).SetText.SetPayload [104, 105]

/-- A server connection whose queue holds a data frame buffered behind the
peer close frame. -/
def staleQueueConn : Conn := Conn.fresh true [closeFinFrame, textHiFrame]

/-- C9 witness: the operations on a concrete closed connection. -/
theorem c9_witness :
    closedConn.closed = true ∧
    closedConn.CloseString [] [] = (closedConn, some Err.eofErr) ∧
    closedConn.WriteFrame Frame.acquire =
      (closedConn, Frame.acquire, some Err.eofErr) ∧
    closedConn.ReadFrame = (closedConn, Option.none, some Err.eofErr) :=
  ⟨by decide,
    c9_closed_conn_ops.1 closedConn [] [] (by decide),
    c9_closed_conn_ops.2.1 closedConn Frame.acquire (by decide),
    c9_closed_conn_ops.2.2.1 closedConn (by decide) (by decide)⟩

/-- C9 counterexample: the claim says every operation after a successful
`Close` returns `EOF`; but a data frame that was buffered behind the peer
close frame survives the close drain, and the next `ReadFrame` after the
successful `CloseString` returns that frame with no error. -/
theorem c9_counterexample :
    (staleQueueConn.CloseString [] []).2 = Option.none ∧
    (staleQueueConn.CloseString [] []).1.closed = true ∧
    ((staleQueueConn.CloseString [] []).1.ReadFrame).2.1 = some textHiFrame ∧
    ((staleQueueConn.CloseString [] []).1.ReadFrame).2.2 = Option.none := by
  decide

/-! ## Claim C7 -/

lemma WriteFrame_err (conn : Conn) (fr : Frame) :
    (conn.WriteFrame fr).2.2 = Option.none ∨
    (conn.WriteFrame fr).2.2 = some Err.eofErr := by
  unfold Conn.WriteFrame
  split <;> simp

lemma mustClose_err (conn : Conn) (wait : Bool) :
    (conn.mustClose wait).2 = Option.none ∨
    (conn.mustClose wait).2 = some Err.eofErr := by
  unfold Conn.mustClose
  split <;> simp

lemma sendCode_err (conn : Conn) (code status : Nat) (b : Option (List Byte))
    (key : List Byte) :
    (conn.SendCode code status b key).2 = Option.none ∨
    (conn.SendCode code status b key).2 = some Err.eofErr := by
  unfold Conn.SendCode
  exact WriteFrame_err ..

lemma replyClose_err (conn : Conn) (fr : Frame) :
    (conn.ReplyClose fr).2.2 = Option.none ∨
    (conn.ReplyClose fr).2.2 = some Err.eofErr := by
  unfold Conn.ReplyClose
  exact mustClose_err ..

lemma checkRequirements_data (conn : Conn) (fr : Frame) (bc : Bool)
    (key : List Byte) (hmask : conn.server = true ∨ fr.IsMasked = false)
    (hp : fr.IsPing = false) (hpo : fr.IsPong = false)
    (hcl : fr.IsClose = false) :
    conn.checkRequirements fr bc key = ⟨conn, fr, false, Option.none⟩ := by
  unfold Conn.checkRequirements
  rcases hmask with h | h <;> simp [h, hp, hpo, hcl]

/-- One `ReadFull` loop iteration on a dequeued frame `f` whose unmasked
form `g` is a data frame passing `checkRequirements` and the
between-continuation check. -/
lemma readFullLoop_step (f g : Frame) (fs : List Frame) (conn : Conn)
    (b : List Byte) (fr : Frame) (bc : Bool) (key : List Byte)
    (hgf : (if f.IsMasked = true then f.Unmask else f) = g)
    (hmask : conn.server = true ∨ g.IsMasked = false)
    (hp : g.IsPing = false) (hpo : g.IsPong = false) (hcl : g.IsClose = false)
    (hmid : bc = false ∨ g.IsFin = true ∨ g.IsContinuation = true) :
    readFullLoop (f :: fs) conn b fr bc key =
      if g.IsFin = true then
        ({ conn with framer := fs }, b ++ g.Payload, g, Option.none)
      else readFullLoop fs { conn with framer := fs } (b ++ g.Payload) g
        true key := by
  simp only [readFullLoop]
  rw [hgf]
  rw [checkRequirements_data _ _ _ _ (by simpa using hmask) hp hpo hcl]
  rcases hmid with h | h | h <;> simp [h]

/-- A FIN Text frame with payload `p`, masked under `key`
(via `SetMask`, as the conn test does before `WriteFrame`). -/
def maskedTextFrame (p key : List Byte) : Frame :=
  (((Frame.acquire.SetFin).SetText).SetPayload p).SetMask key

/-- A plain FIN Text frame with payload `p`. -/
def plainTextFrame (p : List Byte) : Frame :=
  ((Frame.acquire.SetFin).SetText).SetPayload p

lemma maskedTextFrame_op (p key : List Byte) :
    (maskedTextFrame p key).op = [129, 128, 0, 0, 0, 0, 0, 0, 0, 0] := by
  with_unfolding_all rfl

lemma plainTextFrame_op (p : List Byte) :
    (plainTextFrame p).op = [129, 0, 0, 0, 0, 0, 0, 0, 0, 0] := by
  with_unfolding_all rfl

/-- C7 (amended): the only mask-direction check is in `checkRequirements`
and fires when a *client* sees a frame with the mask bit set; a server
connection performs no mask check at all.  Moreover the check is dead on
the `ReadMessage` path: `ReadFull` unmasks the frame (clearing the bit)
before calling `checkRequirements`, so a client reading a masked frame and
a server reading an unmasked frame both succeed without any
`ProtocolError`. -/
theorem c7_mask_direction_checks :
    (∀ (conn : Conn) (fr : Frame) (bc : Bool) (key : List Byte),
      conn.server = false → fr.IsMasked = true →
      (conn.checkRequirements fr bc key).err = some Err.serverMaskedContent) ∧
    (∀ (conn : Conn) (fr : Frame) (bc : Bool) (key : List Byte),
      conn.server = true →
      (conn.checkRequirements fr bc key).err ≠ some Err.serverMaskedContent) ∧
    (∀ p key : List Byte,
      ((Conn.fresh false [maskedTextFrame p key]).read [] []).2.2.2 =
        Option.none) ∧
    (∀ p : List Byte,
      ((Conn.fresh true [plainTextFrame p]).read [] []).2.2.2 =
        Option.none) := by
  refine ⟨?_, ?_, ?_, ?_⟩
  · intro conn fr bc key hs hm
    simp [Conn.checkRequirements, hs, hm]
  · intro conn fr bc key hs
    have hsc := sendCode_err conn CodePong 0 (some fr.Payload) key
    have hrc := replyClose_err conn fr
    unfold Conn.checkRequirements
    rw [if_neg (by simp [hs])]
    split_ifs <;>
      (try simp only [apply_ite CheckResult.err]) <;>
      first
        | (simp; done)
        | ((rcases hsc with h | h <;> split <;> simp [h]); done)
        | ((rcases hsc with h | h <;> simp [h]); done)
        | ((rcases hrc with h | h <;> split <;> simp [h]); done)
        | ((rcases hrc with h | h <;> simp [h]); done)
  · intro p key
    have hmm : (maskedTextFrame p key).IsMasked = true := by
      simp [Frame.IsMasked, Frame.op1, maskedTextFrame_op, maskBit]
    have hg : (maskedTextFrame p key).Unmask.IsMasked = false := by
      simp [Frame.Unmask, Frame.UnsetMask, Frame.IsMasked, Frame.op1,
        maskedTextFrame_op, maskBit]
    have hp1 : (maskedTextFrame p key).Unmask.IsPing = false := by
      simp [Frame.Unmask, Frame.UnsetMask, Frame.IsPing, Frame.Code,
        Frame.op0, Frame.op1, maskedTextFrame_op, CodePing] <;> decide
    have hp2 : (maskedTextFrame p key).Unmask.IsPong = false := by
      simp [Frame.Unmask, Frame.UnsetMask, Frame.IsPong, Frame.Code,
        Frame.op0, Frame.op1, maskedTextFrame_op, CodePong] <;> decide
    have hp3 : (maskedTextFrame p key).Unmask.IsClose = false := by
      simp [Frame.Unmask, Frame.UnsetMask, Frame.IsClose, Frame.Code,
        Frame.op0, Frame.op1, maskedTextFrame_op, CodeClose] <;> decide
    have hfin : (maskedTextFrame p key).Unmask.IsFin = true := by
      simp [Frame.Unmask, Frame.UnsetMask, Frame.IsFin, Frame.op0,
        Frame.op1, maskedTextFrame_op, finBit]
    unfold Conn.read Conn.ReadFull
    rw [show (Conn.fresh false [maskedTextFrame p key]).framer
        = [maskedTextFrame p key] from rfl]
    rw [readFullLoop_step (maskedTextFrame p key)
      ((maskedTextFrame p key).Unmask) [] _ _ _ _ _
      (by rw [hmm]; simp) (Or.inr hg) hp1 hp2 hp3 (Or.inl rfl)]
    simp [hfin]
  · intro p
    have hm : (plainTextFrame p).IsMasked = false := by
      simp [Frame.IsMasked, Frame.op1, plainTextFrame_op, maskBit]
    have hp1 : (plainTextFrame p).IsPing = false := by
      simp [Frame.IsPing, Frame.Code, Frame.op0, plainTextFrame_op, CodePing] <;> decide
    have hp2 : (plainTextFrame p).IsPong = false := by
      simp [Frame.IsPong, Frame.Code, Frame.op0, plainTextFrame_op, CodePong] <;> decide
    have hp3 : (plainTextFrame p).IsClose = false := by
      simp [Frame.IsClose, Frame.Code, Frame.op0, plainTextFrame_op, CodeClose] <;> decide
    have hfin : (plainTextFrame p).IsFin = true := by
      simp [Frame.IsFin, Frame.op0, plainTextFrame_op, finBit]
    unfold Conn.read Conn.ReadFull
    rw [show (Conn.fresh true [plainTextFrame p]).framer
        = [plainTextFrame p] from rfl]
    rw [readFullLoop_step (plainTextFrame p) (plainTextFrame p) [] _ _ _ _ _
      (by rw [hm]; simp) (Or.inl rfl) hp1 hp2 hp3 (Or.inl rfl)]
    simp [hfin]

/-- C7 witness: the theorem applied to a concrete client connection and a
concrete masked frame. -/
theorem c7_witness :
    (Conn.fresh false []).server = false ∧
    (maskedTextFrame [104] [1, 2, 3, 4]).IsMasked = true ∧
    ((Conn.fresh false []).checkRequirements
        (maskedTextFrame [104] [1, 2, 3, 4]) false []).err =
      some Err.serverMaskedContent ∧
    ((Conn.fresh true [plainTextFrame [104]]).read [] []).2.2.2 =
      Option.none :=
  ⟨by decide, by decide,
    c7_mask_direction_checks.1 (Conn.fresh false [])
      (maskedTextFrame [104] [1, 2, 3, 4]) false [] (by decide) (by decide),
    c7_mask_direction_checks.2.2.2 [104]⟩

/-- C7 counterexample: the claim says a server dequeuing an unmasked frame
and a client dequeuing a masked frame both fail with `ProtocolError`; in
the code both reads succeed — the server delivers the unmasked payload,
and the client unmasks the masked frame and delivers it. -/
theorem c7_counterexample :
    ((Conn.fresh true [plainTextFrame [104, 105]]).read [] []).2.2.2 =
      Option.none ∧
    ((Conn.fresh true [plainTextFrame [104, 105]]).read [] []).2.2.1 =
      [104, 105] ∧
    ((Conn.fresh false [maskedTextFrame [104, 105] [1, 2, 3, 4]]).read
        [] []).2.2.2 = Option.none := by
  decide

/-! ## Claim C2 -/

lemma cont_not_control (f : Frame) (h : f.IsContinuation = true) :
    f.IsPing = false ∧ f.IsPong = false ∧ f.IsClose = false := by
  simp only [Frame.IsContinuation, decide_eq_true_eq] at h
  simp [Frame.IsPing, Frame.IsPong, Frame.IsClose, h, CodeContinuation,
    CodePing, CodePong, CodeClose]

lemma data_not_control (f : Frame)
    (h : (f.Code == CodeText || f.Code == CodeBinary) = true) :
    f.IsPing = false ∧ f.IsPong = false ∧ f.IsClose = false := by
  simp only [Bool.or_eq_true, beq_iff_eq] at h
  rcases h with h | h <;>
    simp [Frame.IsPing, Frame.IsPong, Frame.IsClose, h, CodeText, CodeBinary,
      CodePing, CodePong, CodeClose]

/-- The last frame of a nonempty queue (`Frame.acquire` for the empty one). -/
def lastFrame : List Frame → Frame
  | [] => Frame.acquire
  | [f] => f
  | _ :: f :: rest => lastFrame (f :: rest)

/-- A trailing run of unmasked Continuation fragments, all non-FIN except
the final one. -/
def FragSeq : List Frame → Bool
  | [] => false
  | [f] => !f.IsMasked && f.IsContinuation && f.IsFin
  | f :: g :: rest => !f.IsMasked && f.IsContinuation && !f.IsFin &&
      FragSeq (g :: rest)

/-- A conforming message as the claim describes it: an unmasked first data
frame (Text or Binary), either itself FIN or followed by a `FragSeq` of
Continuation fragments ending in the FIN fragment. -/
def MessageSeq : List Frame → Bool
  | [] => false
  | [f] => !f.IsMasked && (f.Code == CodeText || f.Code == CodeBinary) &&
      f.IsFin
  | f :: g :: rest => !f.IsMasked &&
      (f.Code == CodeText || f.Code == CodeBinary) && !f.IsFin &&
      FragSeq (g :: rest)

lemma readFullLoop_fragSeq : ∀ fs : List Frame, FragSeq fs = true →
    ∀ (conn : Conn) (b : List Byte) (fr : Frame) (key : List Byte),
    readFullLoop fs conn b fr true key =
      ({ conn with framer := [] }, b ++ (fs.map Frame.Payload).flatten,
        lastFrame fs, Option.none)
  | [], h => by simp [FragSeq] at h
  | [f], h => by
    intro conn b fr key
    simp only [FragSeq, Bool.and_eq_true, Bool.not_eq_true'] at h
    obtain ⟨⟨hm, hc⟩, hf⟩ := h
    obtain ⟨hp, hpo, hcl⟩ := cont_not_control f hc
    rw [readFullLoop_step f f [] conn b fr true key (by rw [hm]; rfl)
      (Or.inr hm) hp hpo hcl (Or.inr (Or.inr hc))]
    simp [hf, lastFrame]
  | f :: g :: rest, h => by
    intro conn b fr key
    simp only [FragSeq, Bool.and_eq_true, Bool.not_eq_true'] at h
    obtain ⟨⟨⟨hm, hc⟩, hf⟩, hrest⟩ := h
    obtain ⟨hp, hpo, hcl⟩ := cont_not_control f hc
    rw [readFullLoop_step f f (g :: rest) conn b fr true key (by rw [hm]; rfl)
      (Or.inr hm) hp hpo hcl (Or.inr (Or.inr hc))]
    rw [if_neg (by simp [hf])]
    rw [readFullLoop_fragSeq (g :: rest) (by simpa [FragSeq] using hrest)]
    simp [lastFrame]

/-- C2 (amended): on a conforming message — an unmasked first data frame
followed, unless FIN, by Continuation fragments ending in FIN — `read`
(the body of `ReadMessage`) consumes exactly the message, returns the
concatenation of all fragment payloads appended to the caller's buffer
with no error (so no partial payload is ever returned without an error),
and returns the mode of the *last* frame read: the mode of the message's
data frame for an unfragmented message, but `ModeNone` for a fragmented
one, since the final frame is a Continuation. -/
theorem c2_read_message (conn : Conn) (fs : List Frame) (b0 key : List Byte)
    (hmsg : MessageSeq fs = true) (hq : conn.framer = fs) :
    conn.read b0 key =
      ({ conn with framer := [] }, (lastFrame fs).mode,
        b0 ++ (fs.map Frame.Payload).flatten, Option.none) := by
  unfold Conn.read Conn.ReadFull
  rw [hq]
  match fs, hmsg with
  | [f], hmsg => ?_
  | f :: g :: rest, hmsg => ?_
  · simp only [MessageSeq, Bool.and_eq_true, Bool.not_eq_true'] at hmsg
    obtain ⟨⟨hm, hc⟩, hf⟩ := hmsg
    obtain ⟨hp, hpo, hcl⟩ := data_not_control f hc
    rw [readFullLoop_step f f [] conn b0 Frame.acquire false key
      (by rw [hm]; rfl) (Or.inr hm) hp hpo hcl (Or.inl rfl)]
    simp [hf, lastFrame]
  · simp only [MessageSeq, Bool.and_eq_true, Bool.not_eq_true'] at hmsg
    obtain ⟨⟨⟨hm, hc⟩, hf⟩, hrest⟩ := hmsg
    obtain ⟨hp, hpo, hcl⟩ := data_not_control f hc
    rw [readFullLoop_step f f (g :: rest) conn b0 Frame.acquire false key
      (by rw [hm]; rfl) (Or.inr hm) hp hpo hcl (Or.inl rfl)]
    rw [if_neg (by simp [hf])]
    rw [readFullLoop_fragSeq (g :: rest) (by simpa [FragSeq] using hrest)]
    simp [lastFrame]

/-- A non-FIN Text frame with payload "He". -/
def fragTextFrame : Frame := (Frame.acquire.SetText).SetPayload [72, 101]

/-- A FIN Continuation frame with payload "y". -/
def fragContFrame : Frame :=
  ((Frame.acquire.SetFin).SetContinuation).SetPayload [121]

/-- C2 witness: the theorem applied to a concrete two-fragment message. -/
theorem c2_witness :
    MessageSeq [fragTextFrame, fragContFrame] = true ∧
    (Conn.fresh true [fragTextFrame, fragContFrame]).read [] [] =
      ({ Conn.fresh true [fragTextFrame, fragContFrame] with framer := [] },
        (lastFrame [fragTextFrame, fragContFrame]).mode,
        [] ++ ([fragTextFrame, fragContFrame].map Frame.Payload).flatten,
        Option.none) :=
  ⟨by decide,
    c2_read_message (Conn.fresh true [fragTextFrame, fragContFrame])
      [fragTextFrame, fragContFrame] [] [] (by decide) rfl⟩

/-- C2 counterexample: the claim says `ReadMessage` returns the mode of the
first data frame; on the fragmented message Text "He" + Continuation "y"
the payload is assembled correctly but the returned mode is `ModeNone`
(the mode of the final Continuation frame), not `ModeText`. -/
theorem c2_counterexample :
    MessageSeq [fragTextFrame, fragContFrame] = true ∧
    ((Conn.fresh true [fragTextFrame, fragContFrame]).read [] []).2.2.2 =
      Option.none ∧
    ((Conn.fresh true [fragTextFrame, fragContFrame]).read [] []).2.2.1 =
      [72, 101, 121] ∧
    fragTextFrame.mode = Mode.text ∧
    ((Conn.fresh true [fragTextFrame, fragContFrame]).read [] []).2.1 =
      Mode.none := by
  decide

/-! ## Claim C4 -/

lemma lor_low_preserves_128 (x l : Nat) (hl : l < 128) :
    (x ||| l) &&& 128 = x &&& 128 := by
  rw [Nat.and_distrib_right]
  have h0 : l &&& 128 = 0 := by
    have := Nat.and_two_pow l 7
    simp [Nat.testBit_lt_two_pow (by omega : l < 2 ^ 7)] at this
    omega
  simp [h0]

lemma getD_set_ne (l : List Byte) (i j v : Nat) (h : i ≠ j) :
    (l.set i v).getD j 0 = l.getD j 0 := by
  simp [List.getD_eq_getElem?_getD, List.getElem?_set_ne h]

lemma getD_writeAt2 (X src : List Byte) (hX : 2 ≤ X.length) (i : Nat)
    (hi : i < 2) :
    (writeAt X 2 src).getD i 0 = X.getD i 0 := by
  have hlen : (X.take 2).length = 2 := by
    simp [List.length_take]
    omega
  have hi2 : i < X.length := by omega
  simp [writeAt, List.getD_eq_getElem?_getD, List.getElem?_append, hlen, hi,
    List.getElem?_take, List.getElem?_eq_getElem, hi2]

lemma writeTo_b (fr : Frame) : (fr.writeTo).1.b = fr.b := by
  unfold Frame.writeTo Frame.setPayloadLen
  dsimp only
  split_ifs <;> rfl

lemma writeTo_mask (fr : Frame) : (fr.writeTo).1.mask = fr.mask := by
  unfold Frame.writeTo Frame.setPayloadLen
  dsimp only
  split_ifs <;> rfl

lemma writeTo_status (fr : Frame) : (fr.writeTo).1.status = fr.status := by
  unfold Frame.writeTo Frame.setPayloadLen
  dsimp only
  split_ifs <;> rfl

lemma writeTo_op0 (fr : Frame) (hop : fr.op.length = 10) :
    (fr.writeTo).1.op0 = fr.op0 := by
  have hw : ∀ (v : Byte) (src : List Byte),
      (writeAt (fr.op.set 1 v) 2 src).getD 0 0 = fr.op.getD 0 0 := by
    intro v src
    rw [getD_writeAt2 _ _ (by rw [List.length_set, hop]; omega) 0 (by omega)]
    exact getD_set_ne _ 1 0 _ (by omega)
  unfold Frame.writeTo Frame.setPayloadLen Frame.op0
  dsimp only
  split_ifs
  · exact hw _ _
  · exact hw _ _
  · exact getD_set_ne _ 1 0 _ (by omega)

lemma writeTo_op1 (fr : Frame) (hop : fr.op.length = 10) :
    ∃ l, l < 128 ∧ (fr.writeTo).1.op1 = fr.op1 ||| l := by
  have hw : ∀ (v : Byte) (src : List Byte),
      (writeAt (fr.op.set 1 v) 2 src).getD 1 0 = v := by
    intro v src
    rw [getD_writeAt2 _ _ (by rw [List.length_set, hop]; omega) 1 (by omega)]
    exact getD_set_self _ 1 _ (by rw [hop]; omega)
  unfold Frame.writeTo Frame.setPayloadLen Frame.op1
  dsimp only
  split_ifs with h1 h2
  · refine ⟨127, by decide, ?_⟩
    exact hw _ _
  · refine ⟨126, by decide, ?_⟩
    exact hw _ _
  · have hl : fr.effLen < 128 := by omega
    exact ⟨fr.effLen, hl, getD_set_self _ 1 _ (by rw [hop]; omega)⟩

lemma writeTo_IsMasked (fr : Frame) (hop : fr.op.length = 10) :
    (fr.writeTo).1.IsMasked = fr.IsMasked := by
  obtain ⟨l, hl, h⟩ := writeTo_op1 fr hop
  simp [Frame.IsMasked, h, lor_low_preserves_128 _ _ hl, maskBit]

lemma writeTo_Code (fr : Frame) (hop : fr.op.length = 10) :
    (fr.writeTo).1.Code = fr.Code := by
  simp [Frame.Code, writeTo_op0 fr hop]

lemma writeTo_IsFin (fr : Frame) (hop : fr.op.length = 10) :
    (fr.writeTo).1.IsFin = fr.IsFin := by
  simp [Frame.IsFin, writeTo_op0 fr hop]

/-- The frame `Conn.write` hands to `WriteFrame`. -/
def builtW (server : Bool) (mode : Mode) (b key : List Byte) : Frame :=
  let fr := Frame.acquire
  let fr := fr.SetFin
  let fr := if mode = Mode.binary then fr.SetBinary else fr.SetText
  let fr := fr.SetPayload b
  if !server then fr.Mask key else fr

lemma write_eq_WriteFrame (conn : Conn) (mode : Mode) (b key : List Byte) :
    conn.write mode b key = conn.WriteFrame (builtW conn.server mode b key) := rfl


lemma take4_key (key : List Byte) (hkey : key.length = 4) : key.take 4 = key := by
  rw [← hkey]
  simp

lemma writeAt_mask_key (key : List Byte) (hkey : key.length = 4) :
    writeAt (List.replicate 4 0) 0 (key.take 4) = key := by
  simp [writeAt, take4_key key hkey, hkey]

lemma builtW_facts_unmasked (server : Bool) (mode : Mode) (b key : List Byte)
    (h : server = true ∨ b = []) :
    (builtW server mode b key).op =
      (if mode = Mode.binary then 130 else 129) :: 0 :: List.replicate 8 0 ∧
    (builtW server mode b key).b = b := by
  rcases h with h | h
  · subst h
    cases mode <;> exact ⟨by with_unfolding_all rfl, by with_unfolding_all rfl⟩
  · subst h
    cases server <;> cases mode <;>
      exact ⟨by with_unfolding_all rfl, by with_unfolding_all rfl⟩

lemma builtW_facts_masked (mode : Mode) (x : Byte) (xs key : List Byte)
    (hkey : key.length = 4) :
    (builtW false mode (x :: xs) key).op =
      (if mode = Mode.binary then 130 else 129) :: 128 :: List.replicate 8 0 ∧
    (builtW false mode (x :: xs) key).mask = key ∧
    (builtW false mode (x :: xs) key).b = maskBytes key (x :: xs) := by
  have hmask : (builtW false mode (x :: xs) key).mask
      = writeAt (List.replicate 4 0) 0 (key.take 4) := by
    cases mode <;>
      simp [builtW, Frame.Mask, Frame.SetPayload, Frame.SetBinary,
        Frame.SetText, Frame.SetCode, Frame.SetFin, Frame.acquire]
  have hb : (builtW false mode (x :: xs) key).b
      = maskBytes (writeAt (List.replicate 4 0) 0 (key.take 4)) (x :: xs) := by
    cases mode <;>
      simp [builtW, Frame.Mask, Frame.SetPayload, Frame.SetBinary,
        Frame.SetText, Frame.SetCode, Frame.SetFin, Frame.acquire]
  refine ⟨?_, ?_, ?_⟩
  · cases mode <;>
      simp [builtW, Frame.Mask, Frame.SetPayload, Frame.SetBinary,
        Frame.SetText, Frame.SetCode, Frame.SetFin, Frame.acquire,
        Frame.op1, Frame.op0] <;> decide
  · rw [hmask, writeAt_mask_key key hkey]
  · rw [hb, writeAt_mask_key key hkey]

lemma WriteFrame_open (conn : Conn) (fr : Frame) (h : conn.closed = false) :
    conn.WriteFrame fr =
      ({ conn with out := conn.out ++
          [((({ fr with max := conn.maxPayloadSize }).writeTo)).2.1] },
        (({ fr with max := conn.maxPayloadSize }).writeTo).1, Option.none) := by
  unfold Conn.WriteFrame
  rw [if_neg (by simp [h])]


lemma withMax_op (fr : Frame) (m : Nat) :
    ({ fr with max := m } : Frame).op = fr.op := rfl

/-- C4 (amended): `write` (the body of `WriteMessage`) always emits exactly
one frame, with FIN set and the opcode of the mode; a server never sets the
mask bit; a client masks the frame — storing the 4-byte key and XORing the
payload — only when the payload is nonempty: with an empty payload
`Frame.Mask` does nothing and the client frame goes out unmasked. -/
theorem c4_write_mask_policy (conn : Conn) (mode : Mode) (b key : List Byte)
    (hopen : conn.closed = false) (hkey : key.length = 4) :
    (conn.write mode b key).2.2 = Option.none ∧
    (conn.write mode b key).1.out.length = conn.out.length + 1 ∧
    (conn.write mode b key).2.1.IsFin = true ∧
    (conn.write mode b key).2.1.Code =
      (if mode = Mode.binary then CodeBinary else CodeText) ∧
    (conn.server = true →
      (conn.write mode b key).2.1.IsMasked = false ∧
      (conn.write mode b key).2.1.b = b) ∧
    (conn.server = false → b ≠ [] →
      (conn.write mode b key).2.1.IsMasked = true ∧
      (conn.write mode b key).2.1.MaskKey = key ∧
      (conn.write mode b key).2.1.b = maskBytes key b) ∧
    (conn.server = false → b = [] →
      (conn.write mode b key).2.1.IsMasked = false ∧
      (conn.write mode b key).2.1.b = []) := by
  have hW := write_eq_WriteFrame conn mode b key
  rw [hW, WriteFrame_open _ _ hopen]
  have hOP : (builtW conn.server mode b key).op =
      (if mode = Mode.binary then 130 else 129) ::
      (if conn.server = false ∧ b ≠ [] then 128 else 0) ::
      List.replicate 8 0 := by
    rcases b with _ | ⟨x, xs⟩
    · simpa using (builtW_facts_unmasked conn.server mode [] key (Or.inr rfl)).1
    · cases hs : conn.server
      · simpa [hs] using (builtW_facts_masked mode x xs key hkey).1
      · simpa [hs] using
          (builtW_facts_unmasked true mode (x :: xs) key (Or.inl rfl)).1
  have h10 : ({ builtW conn.server mode b key with
      max := conn.maxPayloadSize } : Frame).op.length = 10 := by
    rw [withMax_op, hOP]
    simp
  refine ⟨rfl, by simp, ?_, ?_, ?_, ?_, ?_⟩
  · rw [writeTo_IsFin _ h10]
    show (builtW conn.server mode b key).IsFin = true
    simp only [Frame.IsFin, Frame.op0, hOP, List.getD_cons_zero]
    cases mode <;> decide
  · rw [writeTo_Code _ h10]
    show (builtW conn.server mode b key).Code =
      if mode = Mode.binary then CodeBinary else CodeText
    simp only [Frame.Code, Frame.op0, hOP, List.getD_cons_zero]
    cases mode <;> decide
  · intro hs
    constructor
    · rw [writeTo_IsMasked _ h10]
      show (builtW conn.server mode b key).IsMasked = false
      simp only [Frame.IsMasked, Frame.op1, hOP, List.getD_cons_succ,
        List.getD_cons_zero]
      simp [hs, maskBit]
    · rw [writeTo_b]
      show (builtW conn.server mode b key).b = b
      exact (builtW_facts_unmasked conn.server mode b key (Or.inl hs)).2
  · intro hs hb
    rcases b with _ | ⟨x, xs⟩
    · exact absurd rfl hb
    refine ⟨?_, ?_, ?_⟩
    · rw [writeTo_IsMasked _ h10]
      show (builtW conn.server mode (x :: xs) key).IsMasked = true
      simp only [Frame.IsMasked, Frame.op1, hOP, List.getD_cons_succ,
        List.getD_cons_zero]
      simp [hs, maskBit]
    · show (({ builtW conn.server mode (x :: xs) key with
          max := conn.maxPayloadSize } : Frame).writeTo).1.mask.take 4 = key
      rw [writeTo_mask]
      show (builtW conn.server mode (x :: xs) key).mask.take 4 = key
      rw [hs, (builtW_facts_masked mode x xs key hkey).2.1, take4_key key hkey]
    · rw [writeTo_b]
      show (builtW conn.server mode (x :: xs) key).b = maskBytes key (x :: xs)
      rw [hs]
      exact (builtW_facts_masked mode x xs key hkey).2.2
  · intro hs hb
    subst hb
    constructor
    · rw [writeTo_IsMasked _ h10]
      show (builtW conn.server mode [] key).IsMasked = false
      simp only [Frame.IsMasked, Frame.op1, hOP, List.getD_cons_succ,
        List.getD_cons_zero]
      simp [maskBit]
    · rw [writeTo_b]
      show (builtW conn.server mode [] key).b = []
      exact (builtW_facts_unmasked conn.server mode [] key (Or.inr rfl)).2


/-- C4 witness: a concrete client write with a nonempty payload. -/
theorem c4_witness :
    (Conn.fresh false []).closed = false ∧ ([9, 9, 9, 9] : List Byte).length = 4 ∧
    ((Conn.fresh false []).write Mode.text [65] [9, 9, 9, 9]).2.1.IsMasked = true ∧
    ((Conn.fresh false []).write Mode.text [65] [9, 9, 9, 9]).2.1.b =
      maskBytes [9, 9, 9, 9] [65] :=
  ⟨rfl, rfl,
    ((c4_write_mask_policy (Conn.fresh false []) Mode.text [65] [9, 9, 9, 9]
      rfl rfl).2.2.2.2.2.1 rfl (by simp)).1,
    ((c4_write_mask_policy (Conn.fresh false []) Mode.text [65] [9, 9, 9, 9]
      rfl rfl).2.2.2.2.2.1 rfl (by simp)).2.2⟩

/-- C4 counterexample: the claim says a client frame is always masked,
including for the empty payload; the code sends an empty client payload
with the mask bit clear (`Frame.Mask` is a no-op on an empty payload). -/
theorem c4_counterexample :
    (((Conn.fresh false []).write Mode.text [] [9, 9, 9, 9]).2.1).IsMasked
      = false ∧
    ((Conn.fresh false []).write Mode.text [] [9, 9, 9, 9]).2.2
      = Option.none := by
  decide

/-! ## Claim C3 -/

/-- C3: the claim says readFrom uses read-full semantics, retrying short
reads until the expected byte count or a stream error.  In fact every read
is a single `Read` call with no retry loop: a header delivered one byte per
call fails with `error while reading header` (the `err == nil && n != 2`
branch), and a truncated payload read is accepted silently — `readFrom`
returns success carrying only the bytes the single read delivered. -/
theorem c3_single_read_no_retry :
    (∀ (h1 h2 : Byte) (rest : List (List Byte)),
      (Frame.acquire.readFrom ⟨[h1] :: [h2] :: rest⟩).res
        = .fail .readingHeader) ∧
    (∀ (L : Nat) (p : List Byte), 0 < L → L ≤ 125 → p.length < L → p ≠ [] →
      (Frame.acquire.readFrom ⟨[[0x81, L], p]⟩).res = .ok ∧
      (Frame.acquire.readFrom ⟨[[0x81, L], p]⟩).fr.b = p) := by
  constructor
  · intro h1 h2 rest
    rfl
  · intro L p hL0 hL hp hne
    have h127 : L &&& 127 = L := low_land_127 L (by omega)
    have h128 : L &&& 128 = 0 := low_land_128 L (by omega)
    have h126n : ¬ (L = 126) := by omega
    have h127n : ¬ (L = 127) := by omega
    have hmaxn : ¬ (L > 4096) := by omega
    have hcapn : ¬ (L > 128) := by omega
    have htk : p.take L = p := List.take_of_length_le (by omega)
    have hdr : p.drop L = [] := List.drop_eq_nil_of_le (by omega)
    have hi64 : toInt64 L = (L : Int) := by simp [toInt64]; omega
    have hrneg : ¬ ((L : Int) - 128 > 0) := by omega
    have hnc : ¬ ((129 : Nat) &&& 15 = CodeClose) := by decide
    have hlt : ¬ ((128 : Int) < (L : Int)) := by omega
    simp [Frame.readFrom, Frame.readLenStep,
      Frame.readMaskStep, Frame.readCheckMax, Frame.readCloseStep,
      Frame.readStatusStep, Frame.readPayloadStep, ChunkReader.read, Frame.mustRead, Frame.Len,
      Frame.IsMasked, Frame.IsClose, Frame.Code, Frame.op1, Frame.op0,
      Frame.acquire, writeAt, maskBit, maxPayloadSize, h127, h128, h126n,
      h127n, hmaxn, hcapn, htk, hdr, hi64, hrneg, hnc, hlt, hL0, hne]

/-- C3 witness: the header case at bytes 0x81, 0x05 with no further chunks,
and the truncated-payload case at declared length 5 with 2 delivered bytes. -/
theorem c3_witness :
    (Frame.acquire.readFrom ⟨[[0x81], [0x05]]⟩).res = .fail .readingHeader ∧
    (Frame.acquire.readFrom ⟨[[0x81, 5], [72, 101]]⟩).res = .ok ∧
    (Frame.acquire.readFrom ⟨[[0x81, 5], [72, 101]]⟩).fr.b = [72, 101] :=
  ⟨c3_single_read_no_retry.1 0x81 0x05 [],
   (c3_single_read_no_retry.2 5 [72, 101]
     (by decide) (by decide) (by decide) (by decide)).1,
   (c3_single_read_no_retry.2 5 [72, 101]
     (by decide) (by decide) (by decide) (by decide)).2⟩

/-- C3 counterexample: the whole frame 0x81 0x05 "Hello" is available
across successive Read calls and the stream reports no error, yet readFrom
fails on the first short header read instead of retrying. -/
theorem c3_counterexample :
    (Frame.acquire.readFrom ⟨[[0x81], [0x05], [72, 101, 108, 108, 111]]⟩).res
      = .fail .readingHeader := by
  decide

/-! ## Claim C5 -/

/-- Decoding a big-endian 64-bit length written by `putUint64` recovers it. -/
lemma beUint64_putUint64 (L : Nat) (h : L < 2 ^ 64) :
    beUint64 (putUint64 L) = L := by
  simp [beUint64, putUint64]
  omega

/-- C5: the only length check in readFrom is `fr.max > 0 && nn > fr.max`:
for a frame with configured max `maxp` and a stream advertising a 64-bit
extended length `L < 2^63`, the read fails with the max-exceeded error
exactly when `0 < maxp ∧ maxp < L`.  In particular there is no
unconditional 2^32 sanity cap (see the counterexample), and a zero max
disables the check entirely. -/
theorem c5_max_check_iff (maxp L : Nat) (rest : List Byte) (hL : L < 2 ^ 63) :
    ((({ Frame.acquire with max := maxp }).readFrom
        ⟨[130 :: 127 :: (putUint64 L ++ rest)]⟩).res = .fail .maxExceeded
      ↔ (0 < maxp ∧ maxp < L)) := by
  have hne : (putUint64 L ++ rest).isEmpty = false := by simp [putUint64]
  have htk8 : (putUint64 L ++ rest).take 8 = putUint64 L := by simp [putUint64]
  have hdr8 : (putUint64 L ++ rest).drop 8 = rest := by simp [putUint64]
  have hlen8 : (putUint64 L).length = 8 := by simp [putUint64]
  have hhead : L / 72057594037927936 % 256 &&& 127 = L / 72057594037927936 % 256 :=
    low_land_127 _ (by omega)
  have hlen0 : 0 < (putUint64 L).length := by simp [putUint64]
  have hget2 : (putUint64 L)[0] = L / 72057594037927936 % 256 := by
    simp [putUint64]
  have hset2 : (putUint64 L).set 0 (L / 72057594037927936 % 256) = putUint64 L := by
    simp [putUint64]
  have hLen : ∀ (mx : Nat) (mk st bb : List Byte) (bc : Nat),
      (⟨mx, 130 :: 127 :: putUint64 L, mk, st, bb, bc⟩ : Frame).Len = L := by
    intro mx mk st bb bc
    simp only [Frame.Len, Frame.op1]
    norm_num
    exact beUint64_putUint64 L (by omega)
  have hi64 : toInt64 L = (L : Int) := by simp [toInt64]; omega
  have hm : (127 : Nat) &&& 128 = 0 := by decide
  have hc : ¬ ((130 : Nat) &&& 15 = CodeClose) := by decide
  by_cases hchk : 0 < maxp ∧ maxp < L
  · simp [Frame.readFrom, Frame.readLenStep,
      Frame.readMaskStep, Frame.readCheckMax, Frame.readCloseStep,
      Frame.readStatusStep, Frame.readPayloadStep, ChunkReader.read, Frame.mustRead, Frame.IsMasked,
      Frame.IsClose, Frame.Code, Frame.op1, Frame.op0, Frame.acquire,
      writeAt, maskBit, hne, htk8, hdr8, hlen8, hhead, hget2, hset2, hLen,
      hi64, hchk, hm, hc]
  · simp [Frame.readFrom, Frame.readLenStep,
      Frame.readMaskStep, Frame.readCheckMax, Frame.readCloseStep,
      Frame.readStatusStep, Frame.readPayloadStep, ChunkReader.read, Frame.mustRead, Frame.IsMasked,
      Frame.IsClose, Frame.Code, Frame.op1, Frame.op0, Frame.acquire,
      writeAt, maskBit, hne, htk8, hdr8, hlen8, hhead, hget2, hset2, hLen,
      hi64, hchk, hm, hc, apply_ite ReadFromResult.res]
    split_ifs <;> simp_all

/-- C5 witness: max 4096 against an advertised 64-bit length 5000. -/
theorem c5_witness :
    (5000 : Nat) < 2 ^ 63 ∧
    ((({ Frame.acquire with max := 4096 }).readFrom
        ⟨[130 :: 127 :: (putUint64 5000 ++ [])]⟩).res = .fail .maxExceeded
      ↔ (0 < 4096 ∧ 4096 < 5000)) :=
  ⟨by decide, c5_max_check_iff 4096 5000 [] (by decide)⟩

/-- C5 counterexample: the claim says every parsed length greater than 2^32
is rejected regardless of the configured max; with max 2^40 a declared
length of 2^33 is accepted and the frame read succeeds. -/
theorem c5_counterexample :
    ((({ Frame.acquire with max := 2 ^ 40 }).readFrom
        ⟨[[130, 127] ++ putUint64 (2 ^ 33), [1, 2, 3]]⟩).res = .ok ∧
     (({ Frame.acquire with max := 2 ^ 40 }).readFrom
        ⟨[[130, 127] ++ putUint64 (2 ^ 33), [1, 2, 3]]⟩).fr.b = [1, 2, 3]) := by
  decide

end Fastws
